import Mathlib

/-!
Verification development for the wally installation engine:
a shallow embedding of `src/extract_types.rs` (lexical stripper,
export-type parser, forwarding generator) and `src/installation.rs`
(realm link writer, installation orchestrator), with theorems about the
claims of the specification.

Source text is embedded as `List Char` (the sources index bytes; all
relevant inputs are ASCII).  A Rust `panic!`/`assert!` is embedded as
returning `none`; the scanning loops are embedded with an explicit fuel
argument chosen strictly larger than the number of iterations the loops
can perform (each iteration either advances the index or performs one of
the finitely many index-preserving state transitions before advancing),
so `none` is reachable only through a failing assertion.
-/

set_option linter.unusedVariables false
set_option maxRecDepth 8192

namespace Wally

/-- Shorthand: the character list of a string literal. -/
def str (s : String) : List Char := s.toList

/-- Characters that cannot appear literally in this file: backtick, double
quote, single quote. -/
def cBacktick : Char := Char.ofNat 96

/-- The double-quote character. -/
def cDQuote : Char := Char.ofNat 34

/-- The single-quote character. -/
def cSQuote : Char := Char.ofNat 39

/-- Embeds `fn get` of `src/extract_types.rs`: indexing that returns NUL
past the end of the input. -/
def get (code : List Char) (at' : Nat) : Char :=
  if h : at' < code.length then code[at'] else Char.ofNat 0

/-- The `for _ in 0..level` loop of `fn is_end_of_block`: are the `level`
characters starting at `start` all `=`? -/
def eqRun (code : List Char) (start : Nat) : Nat → Bool
  | 0 => true
  | Nat.succ n => if get code start = '=' then eqRun code (start + 1) n else false

/-- Embeds `fn is_end_of_block` of `src/extract_types.rs`: at position
`at'`, a `]`, then exactly `level` `=` characters, then another `]`. -/
def is_end_of_block (code : List Char) (at' : Nat) (level : Nat) : Bool :=
  decide (get code at' = ']') && eqRun code (at' + 1) level
    && decide (get code (at' + 1 + level) = ']')

/-- Embeds the `while get(lua_code, index) == '='` scans: the number of
consecutive `=` characters at the head of a suffix. -/
def countEqAux : List Char → Nat
  | [] => 0
  | c :: rest => if c = '=' then countEqAux rest + 1 else 0

/-- Number of consecutive `=` characters of `code` starting at index `i`. -/
def countEq (code : List Char) (i : Nat) : Nat := countEqAux (code.drop i)

/-- Embeds `enum LexState` of `src/extract_types.rs`. -/
inductive LexState
  | Code
  | TemplateString
  | DoubleQuoteString
  | SingleQuoteString
  | BlockString (depth : Nat)
  | LineComment
  | BlockComment (depth : Nat)
deriving DecidableEq

/-- The `while index < lua_code.len()` loop of
`fn strip_comments_and_strings`, one constructor case per Rust match arm,
with an explicit fuel argument; `none` embeds the `assert!` that the
character after a counted `[=`...`=` opener run is `[`. -/
def stripLoop (code : List Char) : Nat → Nat → LexState → Option (List Char)
  | 0, _, _ => none
  | Nat.succ fuel, i, state =>
    if i < code.length then
      let c := get code i
      let peek := get code (i + 1)
      match state with
      | LexState.Code =>
        if c = cBacktick then stripLoop code fuel (i + 1) LexState.TemplateString
        else if c = cDQuote then stripLoop code fuel (i + 1) LexState.DoubleQuoteString
        else if c = cSQuote then stripLoop code fuel (i + 1) LexState.SingleQuoteString
        else if c = '[' ∧ (peek = '=' ∨ peek = '[') then
          let k := countEq code (i + 2)
          let level := (if peek = '=' then 1 else 0) + k
          if 0 < level then
            if get code (i + 2 + k) = '[' then
              stripLoop code fuel (i + 3 + k) (LexState.BlockString level)
            else none
          else stripLoop code fuel (i + 2 + k) (LexState.BlockString level)
        else if c = '-' ∧ peek = '-' then
          if get code (i + 2) = '[' then
            let k := countEq code (i + 3)
            if get code (i + 3 + k) = '[' then
              stripLoop code fuel (i + 4 + k) (LexState.BlockComment k)
            else stripLoop code fuel (i + 3 + k) LexState.LineComment
          else stripLoop code fuel (i + 2) LexState.LineComment
        else Option.map (fun rest => c :: rest) (stripLoop code fuel (i + 1) LexState.Code)
      | LexState.TemplateString =>
        if c = cBacktick then stripLoop code fuel (i + 1) LexState.Code
        else if c = '\\' ∧ peek = cBacktick then stripLoop code fuel (i + 2) LexState.TemplateString
        else stripLoop code fuel (i + 1) LexState.TemplateString
      | LexState.DoubleQuoteString =>
        if c = cDQuote then stripLoop code fuel (i + 1) LexState.Code
        else if c = '\\' ∧ peek = cDQuote then stripLoop code fuel (i + 2) LexState.DoubleQuoteString
        else stripLoop code fuel (i + 1) LexState.DoubleQuoteString
      | LexState.SingleQuoteString =>
        if c = cSQuote then stripLoop code fuel (i + 1) LexState.Code
        else if c = '\\' ∧ peek = cSQuote then stripLoop code fuel (i + 2) LexState.SingleQuoteString
        else stripLoop code fuel (i + 1) LexState.SingleQuoteString
      | LexState.BlockString depth =>
        if c = ']' ∧ (peek = '=' ∨ peek = ']') then
          if is_end_of_block code i depth then stripLoop code fuel (i + depth + 2) LexState.Code
          else stripLoop code fuel (i + 1) (LexState.BlockString depth)
        else stripLoop code fuel (i + 1) (LexState.BlockString depth)
      | LexState.BlockComment depth =>
        if c = ']' ∧ (peek = '=' ∨ peek = ']') then
          if is_end_of_block code i depth then stripLoop code fuel (i + depth + 2) LexState.Code
          else stripLoop code fuel (i + 1) (LexState.BlockComment depth)
        else stripLoop code fuel (i + 1) (LexState.BlockComment depth)
      | LexState.LineComment =>
        if c = '\n' then stripLoop code fuel i LexState.Code
        else stripLoop code fuel (i + 1) LexState.LineComment
    else some []

/-- Embeds `fn strip_comments_and_strings` of `src/extract_types.rs`.
The loop performs at most `2 * length + 1` iterations (every iteration
advances the index except the line-comment-to-code transition at a
newline, which is immediately followed by an advancing iteration), so the
given fuel can never be exhausted and `none` means a failed `assert!`. -/
def strip_comments_and_strings (lua_code : List Char) : Option (List Char) :=
  stripLoop lua_code (2 * lua_code.length + 4) 0 LexState.Code

/-- Embeds `enum ParseState` of `src/extract_types.rs` (`Type'` stands for
the Rust variant `Type`, which is not a legal Lean constructor name). -/
inductive ParseState
  | Code
  | Export
  | Type'
  | StartTypeParamList
  | TypeParam
  | TypePack
  | TypeDefault
  | TypeDefaultName
  | NextTypeParam
deriving DecidableEq

/-- Embeds `struct TypeParam` of `src/extract_types.rs`. -/
structure TypeParam where
  name : List Char
  is_pack : Bool
  default : Option (List Char)
deriving DecidableEq

/-- Embeds `TypeParam::new`. -/
def TypeParam.new : TypeParam := ⟨[], false, none⟩

/-- Embeds `struct ExportStatement` of `src/extract_types.rs`. -/
structure ExportStatement where
  name : List Char
  is_exported : Bool
  type_params : List TypeParam
deriving DecidableEq

/-- Embeds `ExportStatement::new`. -/
def ExportStatement.new : ExportStatement := ⟨[], false, []⟩

/-- The parameter-list rendering of one parameter inside
`ExportStatement::to_forwarding_statement`: name, `...` if variadic,
` = default` if a default is present. -/
def TypeParam.render (p : TypeParam) : List Char :=
  p.name ++ (if p.is_pack then str "..." else [])
    ++ (match p.default with | some d => str " = " ++ d | none => [])

/-- The instantiation-argument rendering of one parameter inside
`ExportStatement::to_forwarding_statement`: name and `...` if variadic. -/
def TypeParam.renderName (p : TypeParam) : List Char :=
  p.name ++ (if p.is_pack then str "..." else [])

/-- Embeds `ExportStatement::to_forwarding_statement`. -/
def ExportStatement.to_forwarding_statement (s : ExportStatement) (module_name : List Char) :
    List Char :=
  if s.type_params.length = 0 then
    str "export type " ++ s.name ++ str " = " ++ module_name ++ str "." ++ s.name
  else
    str "export type " ++ s.name ++ str "<"
      ++ List.intercalate (str ", ") (s.type_params.map TypeParam.render)
      ++ str "> = " ++ module_name ++ str "." ++ s.name ++ str "<"
      ++ List.intercalate (str ", ") (s.type_params.map TypeParam.renderName)
      ++ str ">"

/-- Embeds `struct ExtractTypesResult` of `src/extract_types.rs`. -/
structure ExtractTypesResult where
  statements : List ExportStatement
deriving DecidableEq

/-- Embeds `ExtractTypesResult::new`. -/
def ExtractTypesResult.new : ExtractTypesResult := ⟨[]⟩

/-- Embeds `ExtractTypesResult::format_forwarding_statements`. -/
def ExtractTypesResult.format_forwarding_statements (r : ExtractTypesResult)
    (module_name : List Char) : List Char :=
  List.intercalate (str "\n")
    (r.statements.map (fun stmt => stmt.to_forwarding_statement module_name))

/-- Embeds `ExtractTypesResult::is_empty`. -/
def ExtractTypesResult.is_empty (r : ExtractTypesResult) : Bool := r.statements.isEmpty

/-- Embeds `ExtractTypesResult::add_statement`: only exported statements
are retained. -/
def ExtractTypesResult.add_statement (r : ExtractTypesResult) (statement : ExportStatement) :
    ExtractTypesResult :=
  if statement.is_exported then ⟨r.statements ++ [statement]⟩ else r

/-- Embeds Rust `char::is_ascii_whitespace`: space, tab, newline, form
feed, carriage return. -/
def isRustWs (c : Char) : Bool :=
  decide (c = ' ' ∨ c = '\t' ∨ c = '\n' ∨ c = Char.ofNat 12 ∨ c = '\r')

/-- Length of the whitespace run at the head of a suffix; embeds the
`while c.is_ascii_whitespace()` skip of `fn parse_types`. -/
def wsCountAux : List Char → Nat
  | [] => 0
  | c :: rest => if isRustWs c then wsCountAux rest + 1 else 0

/-- The index reached after skipping whitespace from index `i`. -/
def skipWs (code : List Char) (i : Nat) : Nat := i + wsCountAux (code.drop i)

/-- Embeds `is_ascii_alphanumeric() || == '_'`, the identifier-character
test of the identifier-run scans of `fn parse_types`. -/
def isIdentChar (c : Char) : Bool :=
  decide (('a' ≤ c ∧ c ≤ 'z') ∨ ('A' ≤ c ∧ c ≤ 'Z') ∨ ('0' ≤ c ∧ c ≤ '9') ∨ c = '_')

/-- Length of the identifier run at the head of a suffix. -/
def identRunAux : List Char → Nat
  | [] => 0
  | c :: rest => if isIdentChar c then identRunAux rest + 1 else 0

/-- Length of the identifier run of `code` starting at index `i`; embeds
the `while ... is_ascii_alphanumeric() || ... == '_'` scans. -/
def identRun (code : List Char) (i : Nat) : Nat := identRunAux (code.drop i)

/-- The slice `&lua_code[i..i+n]`. -/
def sliceAt (code : List Char) (i n : Nat) : List Char := (code.drop i).take n

/-- Embeds Rust `str::starts_with` applied to `&lua_code[i..]`. -/
def startsWithAt (code : List Char) (i : Nat) (pat : List Char) : Bool :=
  decide ((code.drop i).take pat.length = pat)

/-- The mutable local state of the `fn parse_types` loop: current index,
parse state, statement and parameter being built, accumulated result, and
the set of names of non-exported `type` declarations (embedded as a
duplicate-free list, matching `BTreeSet` membership). -/
structure PState where
  index : Nat
  state : ParseState
  cur : ExportStatement
  curParam : TypeParam
  result : ExtractTypesResult
  non_exported_types : List (List Char)

/-- The `while index < lua_code.len()` loop of `fn parse_types`, one case
per Rust match arm, with an explicit fuel argument; `none` embeds the two
`assert!(....len() > 0)` panics on empty identifier runs. -/
def parseLoop (code : List Char) : Nat → PState → Option (ExtractTypesResult × List (List Char))
  | 0, _ => none
  | Nat.succ fuel, p =>
    let i := skipWs code p.index
    if i < code.length then
      let c := get code i
      match p.state with
      | ParseState.Code =>
        if c = 'e' then
          if startsWithAt code i (str "export") then
            parseLoop code fuel { p with index := i + 6, state := ParseState.Export, cur := { p.cur with is_exported := true } }
          else parseLoop code fuel { p with index := i + 1 }
        else if c = 't' then
          if startsWithAt code i (str "type") then
            parseLoop code fuel { p with index := i + 4, state := ParseState.Type', cur := { p.cur with is_exported := false } }
          else parseLoop code fuel { p with index := i + 1 }
        else parseLoop code fuel { p with index := i + 1 }
      | ParseState.Export =>
        if c = 't' then
          if startsWithAt code i (str "type") then
            parseLoop code fuel { p with index := i + 4, state := ParseState.Type' }
          else parseLoop code fuel { p with index := i, state := ParseState.Code }
        else parseLoop code fuel { p with index := i + 1 }
      | ParseState.Type' =>
        let n := identRun code i
        let type_name := sliceAt code i n
        parseLoop code fuel { p with index := i + n, state := ParseState.StartTypeParamList, cur := { p.cur with name := type_name }, non_exported_types := if p.cur.is_exported then p.non_exported_types else p.non_exported_types.insert type_name }
      | ParseState.StartTypeParamList =>
        if c = '<' then
          parseLoop code fuel { p with index := i + 1, state := ParseState.TypeParam }
        else
          parseLoop code fuel { p with index := i, state := ParseState.Code, cur := ExportStatement.new, result := p.result.add_statement p.cur }
      | ParseState.TypeParam =>
        let n := identRun code i
        if n = 0 then none
        else
          parseLoop code fuel { p with index := i + n, state := ParseState.TypePack, curParam := { p.curParam with name := sliceAt code i n } }
      | ParseState.TypePack =>
        if c = '.' then
          if startsWithAt code i (str "...") then
            parseLoop code fuel { p with index := i + 3, state := ParseState.TypeDefault, curParam := { p.curParam with is_pack := true } }
          else parseLoop code fuel { p with index := i, state := ParseState.TypeDefault }
        else parseLoop code fuel { p with index := i, state := ParseState.TypeDefault }
      | ParseState.TypeDefault =>
        if c = '=' then
          parseLoop code fuel { p with index := i + 1, state := ParseState.TypeDefaultName }
        else
          parseLoop code fuel { p with index := i, state := ParseState.NextTypeParam, curParam := TypeParam.new, cur := { p.cur with type_params := p.cur.type_params ++ [p.curParam] } }
      | ParseState.TypeDefaultName =>
        let n := identRun code i
        if n = 0 then none
        else
          parseLoop code fuel { p with index := i + n, state := ParseState.NextTypeParam, curParam := TypeParam.new, cur := { p.cur with type_params := p.cur.type_params ++ [{ p.curParam with default := some (sliceAt code i n) }] } }
      | ParseState.NextTypeParam =>
        if c = ',' then
          parseLoop code fuel { p with index := i + 1, state := ParseState.TypeParam }
        else if c = '>' then
          parseLoop code fuel { p with index := i + 1, state := ParseState.Code, cur := ExportStatement.new, result := p.result.add_statement p.cur }
        else parseLoop code fuel { p with index := i + 1 }
    else some (p.result, p.non_exported_types)

/-- Embeds the post-processing of one parameter at the end of
`fn parse_types`: a default naming a non-exported type is cleared. -/
def clearParam (non_exported_types : List (List Char)) (param : TypeParam) : TypeParam :=
  match param.default with
  | some d => if d ∈ non_exported_types then { param with default := none } else param
  | none => param

/-- Embeds the `Post-process to remove type defaults which weren't
exported` loop at the end of `fn parse_types`. -/
def postProcessDefaults (r : ExtractTypesResult) (non_exported_types : List (List Char)) :
    ExtractTypesResult :=
  ⟨r.statements.map (fun s =>
    { s with type_params := s.type_params.map (clearParam non_exported_types) })⟩

/-- Embeds `fn parse_types` of `src/extract_types.rs`: strip, scan with
the state machine, then clear defaults that reference non-exported
types.  The loop performs at most `4 * length + 4` iterations (every
iteration advances the index or strictly descends the finite chains of
index-preserving state transitions), so the fuel can never be exhausted
and `none` means a failed `assert!`. -/
def parse_types (lua_code : List Char) : Option ExtractTypesResult :=
  match strip_comments_and_strings lua_code with
  | none => none
  | some code =>
    match parseLoop code (4 * code.length + 8)
        ⟨0, ParseState.Code, ExportStatement.new, TypeParam.new, ExtractTypesResult.new, []⟩ with
    | none => none
    | some (result, non_exported_types) => some (postProcessDefaults result non_exported_types)

/-! Embedding of `src/installation.rs`.  File-system paths are embedded as
lists of path segments; writing a file is embedded as producing the pair
of its path and its contents.  `anyhow` errors are embedded as their
message strings (`Except (List Char)`). -/

/-- Modelled from the spec: `Realm` lives in the crate's `manifest`
module, which is not part of the provided sources; its three variants
(Shared, Server, Dev) are fixed by the spec's data model and by the
`Realm::Shared`/`Realm::Server`/`Realm::Dev` match arms of
`src/installation.rs`. -/
inductive Realm
  | Shared
  | Server
  | Dev
deriving DecidableEq

/-- Modelled from the spec: `PackageId` lives in the crate's `package_id`
module, which is not part of the provided sources; per the spec's data
model it is a package identity of scope, name and exact version, used in
`src/installation.rs` through `id.name().scope()`, `id.name().name()` and
`id.version()`. -/
structure PackageId where
  scope : List Char
  name : List Char
  version : List Char
deriving DecidableEq

/-- Embeds `fn package_id_file_name` of `src/installation.rs`:
`{scope}_{name}@{version}`. -/
def package_id_file_name (id : PackageId) : List Char :=
  id.scope ++ str "_" ++ id.name ++ str "@" ++ id.version

/-- Embeds `struct InstallationContext` of `src/installation.rs`. -/
structure InstallationContext where
  shared_dir : List (List Char)
  shared_index_dir : List (List Char)
  shared_path : Option (List Char)
  server_dir : List (List Char)
  server_index_dir : List (List Char)
  server_path : Option (List Char)
  dev_dir : List (List Char)
  dev_index_dir : List (List Char)

/-- Embeds `InstallationContext::new`. -/
def InstallationContext.new (project_path : List (List Char))
    (shared_path server_path : Option (List Char)) : InstallationContext :=
  { shared_dir := project_path ++ [str "Packages"]
    shared_index_dir := project_path ++ [str "Packages", str "_Index"]
    shared_path := shared_path
    server_dir := project_path ++ [str "ServerPackages"]
    server_index_dir := project_path ++ [str "ServerPackages", str "_Index"]
    server_path := server_path
    dev_dir := project_path ++ [str "DevPackages"]
    dev_index_dir := project_path ++ [str "DevPackages", str "_Index"] }

/-- The `["{full_name}"]["{short_name}"]` chunk shared by every link
template of `src/installation.rs`: the index slot of a package, i.e. the
`scope_name@version` folder followed by the package's short name. -/
def index_access (id : PackageId) : List Char :=
  str "[\"" ++ package_id_file_name id ++ str "\"][\"" ++ id.name ++ str "\"]"

/-- Embeds `InstallationContext::link_sibling_same_index`. -/
def link_sibling_same_index (id : PackageId) (exports : ExtractTypesResult) : List Char :=
  if exports.is_empty then
    str "return require(script.Parent.Parent" ++ index_access id ++ str ")\n"
  else
    str "local MODULE = require(script.Parent.Parent" ++ index_access id ++ str ")\n"
      ++ exports.format_forwarding_statements (str "MODULE") ++ str "\nreturn MODULE\n"

/-- Embeds `InstallationContext::link_root_same_index`. -/
def link_root_same_index (id : PackageId) (exports : ExtractTypesResult) : List Char :=
  if exports.is_empty then
    str "return require(script.Parent._Index" ++ index_access id ++ str ")\n"
  else
    str "local MODULE = require(script.Parent._Index" ++ index_access id ++ str ")\n"
      ++ exports.format_forwarding_statements (str "MODULE") ++ str "\nreturn MODULE\n"

/-- The configuration-error message of
`InstallationContext::link_shared_index` (its `indoc!` literal). -/
def shared_missing_message : List Char :=
  str "A server or dev dependency is depending on a shared dependency.\nTo link these packages correctly you must declare where shared\npackages are placed in the roblox datamodel in your wally.toml.\n\nThis typically looks like:\n\n[place]\nshared-packages = \"game.ReplicatedStorage.Packages\"\n"

/-- The configuration-error message of
`InstallationContext::link_server_index` (its `indoc!` literal). -/
def server_missing_message : List Char :=
  str "A dev dependency is depending on a server dependency.\nTo link these packages correctly you must declare where server\npackages are placed in the roblox datamodel in your wally.toml.\n\nThis typically looks like:\n\n[place]\nserver-packages = \"game.ServerScriptService.Packages\"\n"

/-- The realm-violation message of the `bail!` in
`write_root_package_links` and `write_package_links`. -/
def dev_violation_message : List Char :=
  str "A dev dependency cannot be depended upon by a non-dev dependency"

/-- Embeds `InstallationContext::link_shared_index`. -/
def link_shared_index (ctx : InstallationContext) (id : PackageId)
    (exports : ExtractTypesResult) : Except (List Char) (List Char) :=
  match ctx.shared_path with
  | none => Except.error shared_missing_message
  | some shared_path =>
    Except.ok (if exports.is_empty then
      str "return require(" ++ shared_path ++ str "._Index" ++ index_access id ++ str ")\n"
    else
      str "local MODULE = require(" ++ shared_path ++ str "._Index" ++ index_access id
        ++ str ")\n" ++ exports.format_forwarding_statements (str "MODULE")
        ++ str "\nreturn MODULE\n")

/-- Embeds `InstallationContext::link_server_index`. -/
def link_server_index (ctx : InstallationContext) (id : PackageId)
    (exports : ExtractTypesResult) : Except (List Char) (List Char) :=
  match ctx.server_path with
  | none => Except.error server_missing_message
  | some server_path =>
    Except.ok (if exports.is_empty then
      str "return require(" ++ server_path ++ str "._Index" ++ index_access id ++ str ")\n"
    else
      str "local MODULE = require(" ++ server_path ++ str "._Index" ++ index_access id
        ++ str ")\n" ++ exports.format_forwarding_statements (str "MODULE")
        ++ str "\nreturn MODULE\n")

/-- The realm decision `match (root_realm, dependencies_realm)` of
`write_root_package_links`: equal realms use the root same-index link,
otherwise the dependency's realm picks the cross-realm link or the
dev-realm violation. -/
def rootLinkContents (ctx : InstallationContext) (root_realm dep_realm : Realm)
    (id : PackageId) (exports : ExtractTypesResult) : Except (List Char) (List Char) :=
  if root_realm = dep_realm then Except.ok (link_root_same_index id exports)
  else match dep_realm with
  | Realm.Server => link_server_index ctx id exports
  | Realm.Shared => link_shared_index ctx id exports
  | Realm.Dev => Except.error dev_violation_message

/-- The realm decision `match (package_realm, dependencies_realm)` of
`write_package_links`: as `rootLinkContents` but equal realms use the
sibling same-index link. -/
def packageLinkContents (ctx : InstallationContext) (package_realm dep_realm : Realm)
    (id : PackageId) (exports : ExtractTypesResult) : Except (List Char) (List Char) :=
  if package_realm = dep_realm then Except.ok (link_sibling_same_index id exports)
  else match dep_realm with
  | Realm.Server => link_server_index ctx id exports
  | Realm.Shared => link_shared_index ctx id exports
  | Realm.Dev => Except.error dev_violation_message

/-- The `for (dep_name, dep_package_id) in dependencies` loop shared by
`write_root_package_links` and `write_package_links`: writes one
`<alias>.lua` file per edge into `base`, stopping at the first edge whose
link contents fail; returns the written files in order and the error, if
any. -/
def writeLinksLoop (base : List (List Char))
    (linkFor : PackageId → Except (List Char) (List Char)) :
    List (List Char × PackageId) → List (List (List Char) × List Char) × Option (List Char)
  | [] => ([], none)
  | (dep_name, dep_package_id) :: rest =>
    match linkFor dep_package_id with
    | Except.error e => ([], some e)
    | Except.ok contents =>
      let done := writeLinksLoop base linkFor rest
      ((base ++ [dep_name ++ str ".lua"], contents) :: done.1, done.2)

/-- The base directory used by `write_root_package_links`: the realm's
own packages directory. -/
def rootLinkBase (ctx : InstallationContext) (root_realm : Realm) : List (List Char) :=
  match root_realm with
  | Realm.Shared => ctx.shared_dir
  | Realm.Server => ctx.server_dir
  | Realm.Dev => ctx.dev_dir

/-- The realm's index directory, as selected by both `write_package_links`
and `write_contents`. -/
def indexDirFor (ctx : InstallationContext) (realm : Realm) : List (List Char) :=
  match realm with
  | Realm.Shared => ctx.shared_index_dir
  | Realm.Server => ctx.server_index_dir
  | Realm.Dev => ctx.dev_index_dir

/-- Embeds `InstallationContext::write_root_package_links`. -/
def write_root_package_links (ctx : InstallationContext) (root_realm : Realm)
    (dependencies : List (List Char × PackageId)) (origin_realm : PackageId → Realm)
    (types : PackageId → ExtractTypesResult) :
    List (List (List Char) × List Char) × Option (List Char) :=
  writeLinksLoop (rootLinkBase ctx root_realm)
    (fun d => rootLinkContents ctx root_realm (origin_realm d) d (types d)) dependencies

/-- Embeds `InstallationContext::write_package_links`. -/
def write_package_links (ctx : InstallationContext) (package_id : PackageId)
    (package_realm : Realm) (dependencies : List (List Char × PackageId))
    (origin_realm : PackageId → Realm) (types : PackageId → ExtractTypesResult) :
    List (List (List Char) × List Char) × Option (List Char) :=
  writeLinksLoop (indexDirFor ctx package_realm ++ [package_id_file_name package_id])
    (fun d => packageLinkContents ctx package_realm (origin_realm d) d (types d)) dependencies

/-- Embeds the path computation of `InstallationContext::write_contents`:
the directory a package's contents are unpacked into, namely the realm's
index directory, then the `scope_name@version` folder, then the package's
short name. -/
def write_contents (ctx : InstallationContext) (package_id : PackageId) (realm : Realm) :
    List (List Char) :=
  indexDirFor ctx realm ++ [package_id_file_name package_id, package_id.name]

/-- Modelled from the spec: the `Resolve` value produced by the external
dependency-resolution algorithm, as consumed read-only by
`InstallationContext::install` — the activated identity set, per-identity
origin realm, and the three dependency maps of (alias, dependency
identity) pairs.  The `BTreeMap` lookups `resolved.metadata.get(..)` and
`resolved.*_dependencies.get(..)` are embedded as total functions (an
absent dependency entry is an empty list). -/
structure Resolve where
  activated : List PackageId
  metadata : PackageId → Realm
  shared_dependencies : PackageId → List (List Char × PackageId)
  server_dependencies : PackageId → List (List Char × PackageId)
  dev_dependencies : PackageId → List (List Char × PackageId)

/-- Association-list lookup for the `PackageTypeExports` map
(`BTreeMap<PackageId, ExtractTypesResult>`). -/
def alookup (m : List (PackageId × ExtractTypesResult)) (id : PackageId) :
    Option ExtractTypesResult :=
  match m with
  | [] => none
  | (k, v) :: rest => if k = id then some v else alookup rest id

/-- The `types_for_package` map built by `InstallationContext::install`
before any link is written: one entry per activated non-root package,
holding that package's extraction result. -/
def typesForPackage (activated : List PackageId) (root_package_id : PackageId)
    (extract : PackageId → ExtractTypesResult) : List (PackageId × ExtractTypesResult) :=
  (activated.filter (fun id => decide (id ≠ root_package_id))).map (fun id => (id, extract id))

/-- An observable event of an install: a package's extraction result
became available, or a link file was written. -/
inductive InstallEvent
  | extracted (id : PackageId)
  | wroteLink (path : List (List Char)) (contents : List Char)
deriving DecidableEq

/-- Sequencing of two link-writing results: the second runs only if the
first succeeded (the `?` operator of the write loops). -/
def seqW (a b : List (List (List Char) × List Char) × Option (List Char)) :
    List (List (List Char) × List Char) × Option (List Char) :=
  match a with
  | (ws, none) => (ws ++ b.1, b.2)
  | (ws, some e) => (ws, some e)

/-- The link files written for one activated package by the second loop of
`InstallationContext::install`: the root package uses
`write_root_package_links` per realm's dependency list, every other
package uses `write_package_links` with its own origin realm. -/
def installLinksFor (ctx : InstallationContext) (root_package_id : PackageId)
    (resolved : Resolve) (types : PackageId → ExtractTypesResult) (package_id : PackageId) :
    List (List (List Char) × List Char) × Option (List Char) :=
  if package_id = root_package_id then
    seqW (write_root_package_links ctx Realm.Shared (resolved.shared_dependencies package_id) resolved.metadata types)
      (seqW (write_root_package_links ctx Realm.Server (resolved.server_dependencies package_id) resolved.metadata types)
        (write_root_package_links ctx Realm.Dev (resolved.dev_dependencies package_id) resolved.metadata types))
  else
    seqW (write_package_links ctx package_id (resolved.metadata package_id) (resolved.shared_dependencies package_id) resolved.metadata types)
      (seqW (write_package_links ctx package_id (resolved.metadata package_id) (resolved.server_dependencies package_id) resolved.metadata types)
        (write_package_links ctx package_id (resolved.metadata package_id) (resolved.dev_dependencies package_id) resolved.metadata types))

/-- The whole second loop of `InstallationContext::install`, over the
activated set. -/
def installLinkPhase (ctx : InstallationContext) (root_package_id : PackageId)
    (resolved : Resolve) (types : PackageId → ExtractTypesResult) :
    List PackageId → List (List (List Char) × List Char) × Option (List Char)
  | [] => ([], none)
  | id :: rest =>
    seqW (installLinksFor ctx root_package_id resolved types id)
      (installLinkPhase ctx root_package_id resolved types rest)

/-- Embeds `InstallationContext::install` as its event trace: first every
non-root activated package's extraction result is produced and inserted
into the `types_for_package` lookup (the joined concurrent phase), then
link files are written, each computed through that completed lookup. -/
def install (ctx : InstallationContext) (root_package_id : PackageId) (resolved : Resolve)
    (extract : PackageId → ExtractTypesResult) : List InstallEvent × Option (List Char) :=
  let tmap := typesForPackage resolved.activated root_package_id extract
  let types := fun id => (alookup tmap id).getD ExtractTypesResult.new
  let links := installLinkPhase ctx root_package_id resolved types resolved.activated
  ((resolved.activated.filter (fun id => decide (id ≠ root_package_id))).map InstallEvent.extracted
      ++ links.1.map (fun w => InstallEvent.wroteLink w.1 w.2),
    links.2)

/-- An example package identity used by concrete witnesses. -/
def pkgA : PackageId := ⟨str "scope", str "alpha", str "1.0.0"⟩

/-- A second example package identity used by concrete witnesses. -/
def pkgB : PackageId := ⟨str "scope", str "beta", str "2.0.0"⟩

/-- An example installation context with no cross-realm roots configured,
used by concrete witnesses. -/
def ctxNone : InstallationContext := InstallationContext.new [] none none

/-- An example installation context with both cross-realm roots
configured, used by concrete witnesses. -/
def ctxBoth : InstallationContext :=
  InstallationContext.new [] (some (str "game.ReplicatedStorage.Packages"))
    (some (str "game.ServerScriptService.Packages"))

/-- An example two-package resolution with no dependency edges, used by
concrete witnesses. -/
def resolveAB : Resolve :=
  ⟨[pkgA, pkgB], fun _ => Realm.Shared, fun _ => [], fun _ => [], fun _ => []⟩

/-! Theorems. -/

/-- Claim C3 (code bug): the spec states that lexical stripping and
statement parsing never raise errors or panic on any input, but the code
can panic.  `strip_comments_and_strings` hits
`assert!(get(lua_code, index) == '[')` on the input `[=` (a `[` followed
by `=` with no closing `[`), and `parse_types` hits
`assert!(param_name.len() > 0)` on the input `export type A<<` (an empty
identifier run where a type-parameter name is expected).  In the
embedding a panic is `none`. -/
theorem C3_stripper_and_parser_can_panic :
    strip_comments_and_strings (str "[=") = none ∧
    parse_types (str "[=") = none ∧
    parse_types (str "export type A<<") = none := by
  exact ⟨by decide, by decide, by decide⟩

/-- Claim C7: text reading `export type ...` inside a long-bracket
comment, a quoted string, or a long-bracket string is removed by the
stripper before parsing, and none of the three spec examples produce any
extracted statement. -/
theorem C7_commented_and_quoted_text_ignored :
    strip_comments_and_strings (str "--[[ export type Fake = 1 ]]") = some [] ∧
    strip_comments_and_strings (str "local s = \"export type Fake = 1\"") = some (str "local s = ") ∧
    strip_comments_and_strings (str "[[ export type Fake = 1 ]]") = some [] ∧
    parse_types (str "--[[ export type Fake = 1 ]]") = some ⟨[]⟩ ∧
    parse_types (str "local s = \"export type Fake = 1\"") = some ⟨[]⟩ ∧
    parse_types (str "[[ export type Fake = 1 ]]") = some ⟨[]⟩ := by
  exact ⟨by decide, by decide, by decide, by decide, by decide, by decide⟩

/-- Claim C4 (counterexample): the claim says no export statement is ever
emitted for an `export` that is not immediately followed (modulo
whitespace) by `type`; but in the Export state any character other than a
`t` is skipped while remaining in Export, so `export local type Foo = {}`
— where `export` is followed by `local`, not `type` — still emits an
exported statement named `Foo`. -/
theorem C4_export_not_followed_by_type_still_emits :
    parse_types (str "export local type Foo = {}") =
      some ⟨[⟨str "Foo", true, []⟩]⟩ := by
  decide

/-- `eqRun` checks that the `n` characters starting at `start` are all
`=`. -/
theorem eqRun_iff (code : List Char) (n start : Nat) :
    eqRun code start n = true ↔ ∀ k, k < n → get code (start + k) = '=' := by
  induction n generalizing start with
  | zero => simp [eqRun]
  | succ m ih =>
    simp only [eqRun]
    constructor
    · intro h
      split at h
      case isTrue heq =>
        intro k hk
        cases k with
        | zero => simpa using heq
        | succ j =>
          have hj := (ih (start + 1)).mp h j (by omega)
          have e : start + 1 + j = start + (j + 1) := by omega
          rw [e] at hj
          exact hj
      case isFalse hne => cases h
    · intro h
      have h0 : get code start = '=' := by simpa using h 0 (by omega)
      rw [if_pos h0]
      refine (ih (start + 1)).mpr (fun j hj => ?_)
      have hj := h (j + 1) (by omega)
      have e : start + 1 + j = start + (j + 1) := by omega
      rw [e]
      exact hj

/-- Characterization of `is_end_of_block`: a closer is a `]`, exactly
`depth` `=` characters, then another `]`. -/
theorem is_end_of_block_iff (code : List Char) (i depth : Nat) :
    is_end_of_block code i depth = true ↔
      (get code i = ']' ∧ (∀ k, k < depth → get code (i + 1 + k) = '=') ∧
        get code (i + 1 + depth) = ']') := by
  simp [is_end_of_block, Bool.and_eq_true, decide_eq_true_eq, eqRun_iff, and_assoc]

/-- Inside a long-bracket string at depth `depth`, one iteration of the
stripping loop closes the region (returning to Code past the full closing
sequence) exactly when `is_end_of_block` holds, and otherwise advances one
position as ordinary content. -/
theorem stripLoop_blockString_step (code : List Char) (fuel i depth : Nat)
    (h : i < code.length) :
    stripLoop code (fuel + 1) i (LexState.BlockString depth) =
      if is_end_of_block code i depth then stripLoop code fuel (i + depth + 2) LexState.Code
      else stripLoop code fuel (i + 1) (LexState.BlockString depth) := by
  by_cases he : is_end_of_block code i depth = true
  · rcases (is_end_of_block_iff code i depth).mp he with ⟨hc, hmid, hend⟩
    have hpeek : get code (i + 1) = '=' ∨ get code (i + 1) = ']' := by
      cases depth with
      | zero => right; simpa using hend
      | succ d => left; simpa using hmid 0 (by omega)
    simp [stripLoop, h, hc, hpeek, he]
  · simp only [Bool.not_eq_true] at he
    simp [stripLoop, h, he]

/-- Inside a long-bracket comment at depth `depth`, one iteration of the
stripping loop behaves exactly as for a long-bracket string. -/
theorem stripLoop_blockComment_step (code : List Char) (fuel i depth : Nat)
    (h : i < code.length) :
    stripLoop code (fuel + 1) i (LexState.BlockComment depth) =
      if is_end_of_block code i depth then stripLoop code fuel (i + depth + 2) LexState.Code
      else stripLoop code fuel (i + 1) (LexState.BlockComment depth) := by
  by_cases he : is_end_of_block code i depth = true
  · rcases (is_end_of_block_iff code i depth).mp he with ⟨hc, hmid, hend⟩
    have hpeek : get code (i + 1) = '=' ∨ get code (i + 1) = ']' := by
      cases depth with
      | zero => right; simpa using hend
      | succ d => left; simpa using hmid 0 (by omega)
    simp [stripLoop, h, hc, hpeek, he]
  · simp only [Bool.not_eq_true] at he
    simp [stripLoop, h, he]

/-- Claim C6: inside a long-bracket string or comment at depth N, a `]`
closes the region iff it is followed by exactly N `=` characters and then
another `]`; a valid closer returns to Code advanced past the full
closing sequence (N + 2 characters), anything else advances one position
as ordinary content; in particular a region opened as `[==[` is closed
only by `]==]`, with intervening `]=]` and `]]` treated as content. -/
theorem C6_long_bracket_close (code : List Char) (fuel i depth : Nat)
    (h : i < code.length) :
    (is_end_of_block code i depth = true ↔
      (get code i = ']' ∧ (∀ k, k < depth → get code (i + 1 + k) = '=') ∧
        get code (i + 1 + depth) = ']')) ∧
    (stripLoop code (fuel + 1) i (LexState.BlockString depth) =
      if is_end_of_block code i depth then stripLoop code fuel (i + depth + 2) LexState.Code
      else stripLoop code fuel (i + 1) (LexState.BlockString depth)) ∧
    (stripLoop code (fuel + 1) i (LexState.BlockComment depth) =
      if is_end_of_block code i depth then stripLoop code fuel (i + depth + 2) LexState.Code
      else stripLoop code fuel (i + 1) (LexState.BlockComment depth)) ∧
    strip_comments_and_strings (str "[==[ ]=] ]] ]==]x") = some (str "x") := by
  exact ⟨is_end_of_block_iff code i depth,
    stripLoop_blockString_step code fuel i depth h,
    stripLoop_blockComment_step code fuel i depth h,
    by decide⟩

/-- Witness for C6 at a concrete input: `]=]` at depth 1. -/
theorem C6_long_bracket_close_witness :
    (0 : Nat) < (str "]=]x").length ∧
    (is_end_of_block (str "]=]x") 0 1 = true ↔
      (get (str "]=]x") 0 = ']' ∧ (∀ k, k < 1 → get (str "]=]x") (0 + 1 + k) = '=') ∧
        get (str "]=]x") (0 + 1 + 1) = ']')) ∧
    (stripLoop (str "]=]x") (7 + 1) 0 (LexState.BlockString 1) =
      if is_end_of_block (str "]=]x") 0 1 then stripLoop (str "]=]x") 7 (0 + 1 + 2) LexState.Code
      else stripLoop (str "]=]x") 7 (0 + 1) (LexState.BlockString 1)) := by
  refine ⟨by decide, ?_, ?_⟩
  · exact (C6_long_bracket_close (str "]=]x") 7 0 1 (by decide)).1
  · exact (C6_long_bracket_close (str "]=]x") 7 0 1 (by decide)).2.1

/-- Claim C4 (amended): after consuming `export`, the parser reverts to
Code (abandoning the pending statement) exactly when the next
non-whitespace character is a `t` that does not begin the keyword `type`;
a `t` beginning `type` advances to the Type state, and any other
character is skipped one position while remaining in the Export state —
so an `export` separated from `type` by text containing no stray `t` can
still produce an export statement. -/
theorem C4_export_state_step (code : List Char) (fuel : Nat) (p : PState)
    (hs : p.state = ParseState.Export) (h : skipWs code p.index < code.length) :
    parseLoop code (fuel + 1) p =
      if get code (skipWs code p.index) = 't' then
        if startsWithAt code (skipWs code p.index) (str "type") then
          parseLoop code fuel { p with index := skipWs code p.index + 4, state := ParseState.Type' }
        else parseLoop code fuel { p with index := skipWs code p.index, state := ParseState.Code }
      else parseLoop code fuel { p with index := skipWs code p.index + 1 } := by
  obtain ⟨idx, st, cur, curP, res, ne⟩ := p
  simp only [PState.state] at hs
  subst hs
  rw [parseLoop.eq_2]
  simp only [PState.index]
  rw [if_pos h]

/-- Witness for the amended C4 at a concrete input: in the Export state at
`local ...`, the parser skips the `l` and stays in Export. -/
theorem C4_export_state_step_witness :
    parseLoop (str "local type Foo") (60 + 1)
        ⟨0, ParseState.Export, ⟨[], true, []⟩, TypeParam.new, ExtractTypesResult.new, []⟩ =
      parseLoop (str "local type Foo") 60
        ⟨1, ParseState.Export, ⟨[], true, []⟩, TypeParam.new, ExtractTypesResult.new, []⟩ := by
  have h := C4_export_state_step (str "local type Foo") 60
    ⟨0, ParseState.Export, ⟨[], true, []⟩, TypeParam.new, ExtractTypesResult.new, []⟩
    rfl (by decide)
  rw [h]
  rw [if_neg (by decide)]
  rfl

/-- Claim C8: in the post-processed parse result, no surviving parameter
default names a type recorded as non-exported; and on the spec's example,
`type Helper = {}` followed by `export type X<T = Helper> = {}` parses to
a single exported statement whose parameter has no default, which
forwards as `export type X<T> = MODULE.X<T>`. -/
theorem C8_private_defaults_cleared :
    (∀ (r : ExtractTypesResult) (non_exported_types : List (List Char))
       (s : ExportStatement) (param : TypeParam) (d : List Char),
       s ∈ (postProcessDefaults r non_exported_types).statements →
       param ∈ s.type_params → param.default = some d → d ∉ non_exported_types) ∧
    parse_types (str "type Helper = {}\nexport type X<T = Helper> = {}") =
      some ⟨[⟨str "X", true, [⟨str "T", false, none⟩]⟩]⟩ ∧
    ExportStatement.to_forwarding_statement ⟨str "X", true, [⟨str "T", false, none⟩]⟩
        (str "MODULE") = str "export type X<T> = MODULE.X<T>" := by
  refine ⟨?_, by decide, by decide⟩
  intro r ne s param d hs hp hd
  simp only [postProcessDefaults, List.mem_map] at hs
  obtain ⟨s₀, hs₀, rfl⟩ := hs
  simp only [List.mem_map] at hp
  obtain ⟨p₀, hp₀, rfl⟩ := hp
  intro hdne
  obtain ⟨pn, pp, pd⟩ := p₀
  cases pd with
  | none => simp [clearParam] at hd
  | some d₀ =>
    by_cases hmem : d₀ ∈ ne
    · simp [clearParam, hmem] at hd
    · simp [clearParam, hmem] at hd
      exact hmem (hd ▸ hdne)

/-- Witness for C8 at a concrete instance: a default that survives
post-processing is not among the non-exported names. -/
theorem C8_private_defaults_cleared_witness :
    str "Q" ∉ [str "Helper"] := by
  refine C8_private_defaults_cleared.1 ⟨[⟨str "X", true, [⟨str "T", false, some (str "Q")⟩]⟩]⟩
    [str "Helper"] ⟨str "X", true, [⟨str "T", false, some (str "Q")⟩]⟩
    ⟨str "T", false, some (str "Q")⟩ (str "Q") ?_ (by decide) rfl
  decide

/-- Splitting the link-writing loop at an append: if the first part of the
edge list succeeds, its writes are followed by whatever the remainder
produces. -/
theorem writeLinksLoop_append_ok (base : List (List Char))
    (linkFor : PackageId → Except (List Char) (List Char))
    (xs ys : List (List Char × PackageId))
    (h : (writeLinksLoop base linkFor xs).2 = none) :
    writeLinksLoop base linkFor (xs ++ ys) =
      ((writeLinksLoop base linkFor xs).1 ++ (writeLinksLoop base linkFor ys).1,
        (writeLinksLoop base linkFor ys).2) := by
  induction xs with
  | nil => simp [writeLinksLoop]
  | cons e rest ih =>
    obtain ⟨n, d⟩ := e
    cases hf : linkFor d with
    | error msg => simp [writeLinksLoop, hf] at h
    | ok c =>
      simp only [writeLinksLoop, hf, List.cons_append, List.append_eq] at h ⊢
      rw [ih h]

/-- An edge whose link contents fail writes nothing and stops the loop
with that error. -/
theorem writeLinksLoop_edge_error (base : List (List Char))
    (linkFor : PackageId → Except (List Char) (List Char)) (dep_name : List Char)
    (dep : PackageId) (rest : List (List Char × PackageId)) (msg : List Char)
    (h : linkFor dep = Except.error msg) :
    writeLinksLoop base linkFor ((dep_name, dep) :: rest) = ([], some msg) := by
  simp [writeLinksLoop, h]

/-- The root-link realm decision on a dev-realm dependency of a non-dev
root realm: the realm-violation `bail!`. -/
theorem rootLinkContents_dev (ctx : InstallationContext) (root_realm : Realm)
    (id : PackageId) (exports : ExtractTypesResult) (h : root_realm ≠ Realm.Dev) :
    rootLinkContents ctx root_realm Realm.Dev id exports =
      Except.error dev_violation_message := by
  simp [rootLinkContents, h]

/-- The package-link realm decision on a dev-realm dependency of a non-dev
package realm: the realm-violation `bail!`. -/
theorem packageLinkContents_dev (ctx : InstallationContext) (package_realm : Realm)
    (id : PackageId) (exports : ExtractTypesResult) (h : package_realm ≠ Realm.Dev) :
    packageLinkContents ctx package_realm Realm.Dev id exports =
      Except.error dev_violation_message := by
  simp [packageLinkContents, h]

/-- Claim C1: for every dependency edge processed by either link writer
(root or non-root dependent), if the dependency's origin realm is Dev and
the dependent's realm is not Dev, then as soon as that edge is reached
(all preceding edges of the list having succeeded) the writer fails with
the realm-violation error and the writes are exactly those of the
preceding edges — no link file is written for the violating edge. -/
theorem C1_dev_edge_fails_realm_violation :
    (∀ (ctx : InstallationContext) (root_realm : Realm) (origin_realm : PackageId → Realm)
       (types : PackageId → ExtractTypesResult) (pre post : List (List Char × PackageId))
       (dep_name : List Char) (dep : PackageId),
       origin_realm dep = Realm.Dev → root_realm ≠ Realm.Dev →
       (write_root_package_links ctx root_realm pre origin_realm types).2 = none →
       write_root_package_links ctx root_realm (pre ++ (dep_name, dep) :: post) origin_realm
           types =
         ((write_root_package_links ctx root_realm pre origin_realm types).1,
           some dev_violation_message)) ∧
    (∀ (ctx : InstallationContext) (package_id : PackageId) (package_realm : Realm)
       (origin_realm : PackageId → Realm) (types : PackageId → ExtractTypesResult)
       (pre post : List (List Char × PackageId)) (dep_name : List Char) (dep : PackageId),
       origin_realm dep = Realm.Dev → package_realm ≠ Realm.Dev →
       (write_package_links ctx package_id package_realm pre origin_realm types).2 = none →
       write_package_links ctx package_id package_realm (pre ++ (dep_name, dep) :: post)
           origin_realm types =
         ((write_package_links ctx package_id package_realm pre origin_realm types).1,
           some dev_violation_message)) := by
  constructor
  · intro ctx root_realm origin_realm types pre post dep_name dep h1 h2 h3
    have hf : rootLinkContents ctx root_realm (origin_realm dep) dep (types dep) =
        Except.error dev_violation_message := by
      rw [h1]; exact rootLinkContents_dev ctx root_realm dep (types dep) h2
    unfold write_root_package_links at h3 ⊢
    rw [writeLinksLoop_append_ok _ _ _ _ h3,
      writeLinksLoop_edge_error _ _ dep_name dep post dev_violation_message hf]
    simp
  · intro ctx package_id package_realm origin_realm types pre post dep_name dep h1 h2 h3
    have hf : packageLinkContents ctx package_realm (origin_realm dep) dep (types dep) =
        Except.error dev_violation_message := by
      rw [h1]; exact packageLinkContents_dev ctx package_realm dep (types dep) h2
    unfold write_package_links at h3 ⊢
    rw [writeLinksLoop_append_ok _ _ _ _ h3,
      writeLinksLoop_edge_error _ _ dep_name dep post dev_violation_message hf]
    simp

/-- Witness for C1 at a concrete input: a shared root depending on a
dev-realm package fails with the realm violation and writes nothing. -/
theorem C1_dev_edge_fails_realm_violation_witness :
    write_root_package_links ctxNone Realm.Shared ([] ++ (str "x", pkgA) :: [])
        (fun _ => Realm.Dev) (fun _ => ExtractTypesResult.new) =
      ((write_root_package_links ctxNone Realm.Shared [] (fun _ => Realm.Dev)
          (fun _ => ExtractTypesResult.new)).1,
        some dev_violation_message) :=
  C1_dev_edge_fails_realm_violation.1 ctxNone Realm.Shared (fun _ => Realm.Dev)
    (fun _ => ExtractTypesResult.new) [] [] (str "x") pkgA rfl (by decide) rfl

/-- Every write the link-writing loop produces is an `<alias>.lua` file in
the loop's base directory, for an alias taken from the edge list. -/
theorem writeLinksLoop_writes_shape (base : List (List Char))
    (linkFor : PackageId → Except (List Char) (List Char))
    (deps : List (List Char × PackageId)) (w : List (List Char) × List Char)
    (h : w ∈ (writeLinksLoop base linkFor deps).1) :
    ∃ dep_name dep, (dep_name, dep) ∈ deps ∧ w.1 = base ++ [dep_name ++ str ".lua"] := by
  induction deps with
  | nil => simp [writeLinksLoop] at h
  | cons e rest ih =>
    obtain ⟨n, d⟩ := e
    cases hf : linkFor d with
    | error msg => simp [writeLinksLoop, hf] at h
    | ok c =>
      simp only [writeLinksLoop, hf] at h
      rcases List.mem_cons.mp h with hw | hw
      · exact ⟨n, d, by simp, by rw [hw]⟩
      · obtain ⟨a, dd, hmem, hpath⟩ := ih hw
        exact ⟨a, dd, by simp [hmem], hpath⟩

/-- Claim C9: every link file either writer produces has the fixed
extension `.lua` — its path is the dependent's directory joined with
`<alias>.lua` for an alias of the dependency list (the dependency's entry
file, `init.lua` or `init.luau`, plays no role in the path). -/
theorem C9_link_files_use_lua_extension :
    (∀ (ctx : InstallationContext) (root_realm : Realm)
       (deps : List (List Char × PackageId)) (origin_realm : PackageId → Realm)
       (types : PackageId → ExtractTypesResult) (w : List (List Char) × List Char),
       w ∈ (write_root_package_links ctx root_realm deps origin_realm types).1 →
       ∃ dep_name dep, (dep_name, dep) ∈ deps ∧
         w.1 = rootLinkBase ctx root_realm ++ [dep_name ++ str ".lua"]) ∧
    (∀ (ctx : InstallationContext) (package_id : PackageId) (package_realm : Realm)
       (deps : List (List Char × PackageId)) (origin_realm : PackageId → Realm)
       (types : PackageId → ExtractTypesResult) (w : List (List Char) × List Char),
       w ∈ (write_package_links ctx package_id package_realm deps origin_realm types).1 →
       ∃ dep_name dep, (dep_name, dep) ∈ deps ∧
         w.1 = (indexDirFor ctx package_realm ++ [package_id_file_name package_id])
           ++ [dep_name ++ str ".lua"]) := by
  constructor
  · intro ctx root_realm deps origin_realm types w h
    exact writeLinksLoop_writes_shape _ _ deps w h
  · intro ctx package_id package_realm deps origin_realm types w h
    exact writeLinksLoop_writes_shape _ _ deps w h

/-- Witness for C9 at a concrete input: the single write of a one-edge
root link phase is `Packages/x.lua`. -/
theorem C9_link_files_use_lua_extension_witness :
    ∃ dep_name dep, (dep_name, dep) ∈ [(str "x", pkgB)] ∧
      (([str "Packages", str "x.lua"],
          link_root_same_index pkgB ExtractTypesResult.new) :
        List (List Char) × List Char).1 =
        rootLinkBase ctxNone Realm.Shared ++ [dep_name ++ str ".lua"] :=
  C9_link_files_use_lua_extension.1 ctxNone Realm.Shared [(str "x", pkgB)]
    (fun _ => Realm.Shared) (fun _ => ExtractTypesResult.new)
    ([str "Packages", str "x.lua"], link_root_same_index pkgB ExtractTypesResult.new)
    (by decide)

/-- With the shared-packages root configured, the shared cross-realm link
contents contain a require of that root followed by the dependency's
index slot. -/
theorem link_shared_index_some (ctx : InstallationContext) (id : PackageId)
    (exports : ExtractTypesResult) (p : List Char) (hp : ctx.shared_path = some p) :
    ∃ pre post, link_shared_index ctx id exports =
      Except.ok (pre ++ (str "require(" ++ p ++ str "._Index" ++ index_access id ++ str ")")
        ++ post) := by
  simp only [link_shared_index, hp]
  by_cases he : exports.is_empty
  · refine ⟨str "return ", str "\n", ?_⟩
    rw [if_pos he]
    have e1 : str "return require(" = str "return " ++ str "require(" := by decide
    have e2 : str ")\n" = (str ")" : List Char) ++ str "\n" := by decide
    rw [e1, e2]
    simp [List.append_assoc]
  · refine ⟨str "local MODULE = ",
      str "\n" ++ exports.format_forwarding_statements (str "MODULE") ++ str "\nreturn MODULE\n",
      ?_⟩
    rw [if_neg he]
    have e1 : str "local MODULE = require(" = str "local MODULE = " ++ str "require(" := by
      decide
    have e2 : str ")\n" = (str ")" : List Char) ++ str "\n" := by decide
    rw [e1, e2]
    simp [List.append_assoc]

/-- With the server-packages root configured, the server cross-realm link
contents contain a require of that root followed by the dependency's
index slot. -/
theorem link_server_index_some (ctx : InstallationContext) (id : PackageId)
    (exports : ExtractTypesResult) (p : List Char) (hp : ctx.server_path = some p) :
    ∃ pre post, link_server_index ctx id exports =
      Except.ok (pre ++ (str "require(" ++ p ++ str "._Index" ++ index_access id ++ str ")")
        ++ post) := by
  simp only [link_server_index, hp]
  by_cases he : exports.is_empty
  · refine ⟨str "return ", str "\n", ?_⟩
    rw [if_pos he]
    have e1 : str "return require(" = str "return " ++ str "require(" := by decide
    have e2 : str ")\n" = (str ")" : List Char) ++ str "\n" := by decide
    rw [e1, e2]
    simp [List.append_assoc]
  · refine ⟨str "local MODULE = ",
      str "\n" ++ exports.format_forwarding_statements (str "MODULE") ++ str "\nreturn MODULE\n",
      ?_⟩
    rw [if_neg he]
    have e1 : str "local MODULE = require(" = str "local MODULE = " ++ str "require(" := by
      decide
    have e2 : str ")\n" = (str ")" : List Char) ++ str "\n" := by decide
    rw [e1, e2]
    simp [List.append_assoc]

/-- Without the shared-packages root, the shared cross-realm link fails
with the configuration error. -/
theorem link_shared_index_none (ctx : InstallationContext) (id : PackageId)
    (exports : ExtractTypesResult) (hp : ctx.shared_path = none) :
    link_shared_index ctx id exports = Except.error shared_missing_message := by
  simp [link_shared_index, hp]

/-- Without the server-packages root, the server cross-realm link fails
with the configuration error. -/
theorem link_server_index_none (ctx : InstallationContext) (id : PackageId)
    (exports : ExtractTypesResult) (hp : ctx.server_path = none) :
    link_server_index ctx id exports = Except.error server_missing_message := by
  simp [link_server_index, hp]

/-- Claim C5: a cross-realm edge whose dependency realm is Shared
(respectively Server) resolves to the shared (server) index link; with
the corresponding root path configured the link contents contain a
require built from that root plus the dependency's index slot; with the
root unconfigured, link generation fails with a configuration error whose
message names the exact setting to add (`shared-packages`,
`server-packages`), and the writer reaching such an edge writes no link
file for it. -/
theorem C5_cross_realm_root_configuration :
    (∀ (ctx : InstallationContext) (dependent_realm : Realm) (id : PackageId)
       (exports : ExtractTypesResult), dependent_realm ≠ Realm.Shared →
       packageLinkContents ctx dependent_realm Realm.Shared id exports =
           link_shared_index ctx id exports ∧
       rootLinkContents ctx dependent_realm Realm.Shared id exports =
           link_shared_index ctx id exports) ∧
    (∀ (ctx : InstallationContext) (dependent_realm : Realm) (id : PackageId)
       (exports : ExtractTypesResult), dependent_realm ≠ Realm.Server →
       packageLinkContents ctx dependent_realm Realm.Server id exports =
           link_server_index ctx id exports ∧
       rootLinkContents ctx dependent_realm Realm.Server id exports =
           link_server_index ctx id exports) ∧
    (∀ (ctx : InstallationContext) (id : PackageId) (exports : ExtractTypesResult)
       (p : List Char), ctx.shared_path = some p →
       ∃ pre post, link_shared_index ctx id exports =
         Except.ok (pre ++ (str "require(" ++ p ++ str "._Index" ++ index_access id ++ str ")")
           ++ post)) ∧
    (∀ (ctx : InstallationContext) (id : PackageId) (exports : ExtractTypesResult)
       (p : List Char), ctx.server_path = some p →
       ∃ pre post, link_server_index ctx id exports =
         Except.ok (pre ++ (str "require(" ++ p ++ str "._Index" ++ index_access id ++ str ")")
           ++ post)) ∧
    (∀ (ctx : InstallationContext) (id : PackageId) (exports : ExtractTypesResult),
       ctx.shared_path = none →
       link_shared_index ctx id exports = Except.error shared_missing_message) ∧
    (∀ (ctx : InstallationContext) (id : PackageId) (exports : ExtractTypesResult),
       ctx.server_path = none →
       link_server_index ctx id exports = Except.error server_missing_message) ∧
    shared_missing_message =
      str "A server or dev dependency is depending on a shared dependency.\nTo link these packages correctly you must declare where shared\npackages are placed in the roblox datamodel in your wally.toml.\n\nThis typically looks like:\n\n[place]\n"
        ++ str "shared-packages" ++ str " = \"game.ReplicatedStorage.Packages\"\n" ∧
    server_missing_message =
      str "A dev dependency is depending on a server dependency.\nTo link these packages correctly you must declare where server\npackages are placed in the roblox datamodel in your wally.toml.\n\nThis typically looks like:\n\n[place]\n"
        ++ str "server-packages" ++ str " = \"game.ServerScriptService.Packages\"\n" ∧
    (∀ (ctx : InstallationContext) (package_id : PackageId) (package_realm : Realm)
       (origin_realm : PackageId → Realm) (types : PackageId → ExtractTypesResult)
       (pre post : List (List Char × PackageId)) (dep_name : List Char) (dep : PackageId),
       origin_realm dep = Realm.Shared → package_realm ≠ Realm.Shared →
       ctx.shared_path = none →
       (write_package_links ctx package_id package_realm pre origin_realm types).2 = none →
       write_package_links ctx package_id package_realm (pre ++ (dep_name, dep) :: post)
           origin_realm types =
         ((write_package_links ctx package_id package_realm pre origin_realm types).1,
           some shared_missing_message)) ∧
    (∀ (ctx : InstallationContext) (package_id : PackageId) (package_realm : Realm)
       (origin_realm : PackageId → Realm) (types : PackageId → ExtractTypesResult)
       (pre post : List (List Char × PackageId)) (dep_name : List Char) (dep : PackageId),
       origin_realm dep = Realm.Server → package_realm ≠ Realm.Server →
       ctx.server_path = none →
       (write_package_links ctx package_id package_realm pre origin_realm types).2 = none →
       write_package_links ctx package_id package_realm (pre ++ (dep_name, dep) :: post)
           origin_realm types =
         ((write_package_links ctx package_id package_realm pre origin_realm types).1,
           some server_missing_message)) ∧
    (∀ (ctx : InstallationContext) (root_realm : Realm) (origin_realm : PackageId → Realm)
       (types : PackageId → ExtractTypesResult) (pre post : List (List Char × PackageId))
       (dep_name : List Char) (dep : PackageId),
       origin_realm dep = Realm.Shared → root_realm ≠ Realm.Shared →
       ctx.shared_path = none →
       (write_root_package_links ctx root_realm pre origin_realm types).2 = none →
       write_root_package_links ctx root_realm (pre ++ (dep_name, dep) :: post) origin_realm
           types =
         ((write_root_package_links ctx root_realm pre origin_realm types).1,
           some shared_missing_message)) ∧
    (∀ (ctx : InstallationContext) (root_realm : Realm) (origin_realm : PackageId → Realm)
       (types : PackageId → ExtractTypesResult) (pre post : List (List Char × PackageId))
       (dep_name : List Char) (dep : PackageId),
       origin_realm dep = Realm.Server → root_realm ≠ Realm.Server →
       ctx.server_path = none →
       (write_root_package_links ctx root_realm pre origin_realm types).2 = none →
       write_root_package_links ctx root_realm (pre ++ (dep_name, dep) :: post) origin_realm
           types =
         ((write_root_package_links ctx root_realm pre origin_realm types).1,
           some server_missing_message)) := by
  refine ⟨?_, ?_, link_shared_index_some, link_server_index_some, link_shared_index_none,
    link_server_index_none, by decide, by decide, ?_, ?_, ?_, ?_⟩
  · intro ctx dependent_realm id exports h
    exact ⟨by simp [packageLinkContents, h], by simp [rootLinkContents, h]⟩
  · intro ctx dependent_realm id exports h
    exact ⟨by simp [packageLinkContents, h], by simp [rootLinkContents, h]⟩
  · intro ctx package_id package_realm origin_realm types pre post dep_name dep h1 h2 hp h3
    have hf : packageLinkContents ctx package_realm (origin_realm dep) dep (types dep) =
        Except.error shared_missing_message := by
      rw [h1]
      simp [packageLinkContents, h2, link_shared_index_none ctx dep (types dep) hp]
    unfold write_package_links at h3 ⊢
    rw [writeLinksLoop_append_ok _ _ _ _ h3,
      writeLinksLoop_edge_error _ _ dep_name dep post shared_missing_message hf]
    simp
  · intro ctx package_id package_realm origin_realm types pre post dep_name dep h1 h2 hp h3
    have hf : packageLinkContents ctx package_realm (origin_realm dep) dep (types dep) =
        Except.error server_missing_message := by
      rw [h1]
      simp [packageLinkContents, h2, link_server_index_none ctx dep (types dep) hp]
    unfold write_package_links at h3 ⊢
    rw [writeLinksLoop_append_ok _ _ _ _ h3,
      writeLinksLoop_edge_error _ _ dep_name dep post server_missing_message hf]
    simp
  · intro ctx root_realm origin_realm types pre post dep_name dep h1 h2 hp h3
    have hf : rootLinkContents ctx root_realm (origin_realm dep) dep (types dep) =
        Except.error shared_missing_message := by
      rw [h1]
      simp [rootLinkContents, h2, link_shared_index_none ctx dep (types dep) hp]
    unfold write_root_package_links at h3 ⊢
    rw [writeLinksLoop_append_ok _ _ _ _ h3,
      writeLinksLoop_edge_error _ _ dep_name dep post shared_missing_message hf]
    simp
  · intro ctx root_realm origin_realm types pre post dep_name dep h1 h2 hp h3
    have hf : rootLinkContents ctx root_realm (origin_realm dep) dep (types dep) =
        Except.error server_missing_message := by
      rw [h1]
      simp [rootLinkContents, h2, link_server_index_none ctx dep (types dep) hp]
    unfold write_root_package_links at h3 ⊢
    rw [writeLinksLoop_append_ok _ _ _ _ h3,
      writeLinksLoop_edge_error _ _ dep_name dep post server_missing_message hf]
    simp

/-- Witness for C5 at a concrete input: a dev root with an unconfigured
shared root fails its shared edge with the shared configuration error and
writes nothing. -/
theorem C5_cross_realm_root_configuration_witness :
    write_root_package_links ctxNone Realm.Dev ([] ++ (str "y", pkgA) :: [])
        (fun _ => Realm.Shared) (fun _ => ExtractTypesResult.new) =
      ((write_root_package_links ctxNone Realm.Dev [] (fun _ => Realm.Shared)
          (fun _ => ExtractTypesResult.new)).1,
        some shared_missing_message) :=
  C5_cross_realm_root_configuration.2.2.2.2.2.2.2.2.2.2.1 ctxNone Realm.Dev
    (fun _ => Realm.Shared) (fun _ => ExtractTypesResult.new) [] [] (str "y") pkgA rfl
    (by decide) rfl rfl

/-- The `types_for_package` lookup contains an entry for every activated
non-root package. -/
theorem alookup_typesForPackage_isSome (activated : List PackageId) (root : PackageId)
    (extract : PackageId → ExtractTypesResult) (id : PackageId)
    (hmem : id ∈ activated) (hne : id ≠ root) :
    (alookup (typesForPackage activated root extract) id).isSome = true := by
  induction activated with
  | nil => cases hmem
  | cons a rest ih =>
    rcases List.mem_cons.mp hmem with rfl | hmem'
    · simp only [typesForPackage, List.filter_cons]
      rw [if_pos (by simpa using hne)]
      simp [alookup]
    · by_cases ha : a = root
      · simp only [typesForPackage, List.filter_cons]
        rw [if_neg (by simpa using ha)]
        exact ih hmem'
      · simp only [typesForPackage, List.filter_cons]
        rw [if_pos (by simpa using ha)]
        by_cases hai : a = id
        · simp [alookup, hai]
        · simp only [List.map_cons, alookup]
          rw [if_neg hai]
          exact ih hmem'

/-- Claim C2: the trace of an install is an extraction phase — one
extraction event per activated non-root package, all inserted into the
`types_for_package` lookup — followed by a link-writing phase whose link
contents are computed through that completed lookup; and the completed
lookup is total over every activated non-root package, in particular over
every dependency identity referenced by any edge that resolution
activated (as a non-root package). -/
theorem C2_extraction_barrier_and_total_lookup
    (ctx : InstallationContext) (root_package_id : PackageId) (resolved : Resolve)
    (extract : PackageId → ExtractTypesResult) :
    (∃ ex ls, (install ctx root_package_id resolved extract).1 = ex ++ ls ∧
      (∀ e ∈ ex, ∃ id, e = InstallEvent.extracted id) ∧
      (∀ e ∈ ls, ∃ path contents, e = InstallEvent.wroteLink path contents) ∧
      ex = (resolved.activated.filter
        (fun id => decide (id ≠ root_package_id))).map InstallEvent.extracted ∧
      ls = (installLinkPhase ctx root_package_id resolved
        (fun id => (alookup (typesForPackage resolved.activated root_package_id extract)
          id).getD ExtractTypesResult.new) resolved.activated).1.map
            (fun w => InstallEvent.wroteLink w.1 w.2)) ∧
    (∀ id, id ∈ resolved.activated → id ≠ root_package_id →
      (alookup (typesForPackage resolved.activated root_package_id extract) id).isSome
        = true) ∧
    (∀ dependent, dependent ∈ resolved.activated → ∀ dep_name dep,
      ((dep_name, dep) ∈ resolved.shared_dependencies dependent ∨
        (dep_name, dep) ∈ resolved.server_dependencies dependent ∨
        (dep_name, dep) ∈ resolved.dev_dependencies dependent) →
      dep ∈ resolved.activated → dep ≠ root_package_id →
      (alookup (typesForPackage resolved.activated root_package_id extract) dep).isSome
        = true) := by
  refine ⟨⟨_, _, ?_, ?_, ?_, rfl, rfl⟩, ?_, ?_⟩
  · rfl
  · intro e he
    obtain ⟨id, _, rfl⟩ := List.mem_map.mp he
    exact ⟨id, rfl⟩
  · intro e he
    obtain ⟨w, _, rfl⟩ := List.mem_map.mp he
    exact ⟨w.1, w.2, rfl⟩
  · intro id hmem hne
    exact alookup_typesForPackage_isSome resolved.activated root_package_id extract id hmem hne
  · intro dependent hdep dep_name dep hedge hmem hne
    exact alookup_typesForPackage_isSome resolved.activated root_package_id extract dep hmem hne

/-- Witness for C2 at a concrete input: the lookup of a two-package
install is defined at the non-root package. -/
theorem C2_extraction_barrier_and_total_lookup_witness :
    (alookup (typesForPackage resolveAB.activated pkgA (fun _ => ExtractTypesResult.new))
      pkgB).isSome = true :=
  (C2_extraction_barrier_and_total_lookup ctxNone pkgA resolveAB
    (fun _ => ExtractTypesResult.new)).2.1 pkgB (by decide) (by decide)

/-- Claim C10: a package's contents are unpacked into
`<realm index root>/<scope_name@version>/<short name>/`, and every link
template's require path indexes exactly the same two components — the
`scope_name@version` folder (`package_id_file_name`) followed by the
package's short name. -/
theorem C10_unpack_dir_matches_link_slot
    (ctx : InstallationContext) (realm : Realm) (id : PackageId)
    (exports : ExtractTypesResult) :
    write_contents ctx id realm =
      indexDirFor ctx realm ++ [package_id_file_name id, id.name] ∧
    index_access id =
      str "[\"" ++ package_id_file_name id ++ str "\"][\"" ++ id.name ++ str "\"]" ∧
    (∃ pre post, link_sibling_same_index id exports = pre ++ index_access id ++ post) ∧
    (∃ pre post, link_root_same_index id exports = pre ++ index_access id ++ post) ∧
    (∀ p, ctx.shared_path = some p → ∃ pre post,
      link_shared_index ctx id exports = Except.ok (pre ++ index_access id ++ post)) ∧
    (∀ p, ctx.server_path = some p → ∃ pre post,
      link_server_index ctx id exports = Except.ok (pre ++ index_access id ++ post)) := by
  refine ⟨rfl, rfl, ?_, ?_, ?_, ?_⟩
  · by_cases he : exports.is_empty
    · exact ⟨str "return require(script.Parent.Parent", str ")\n",
        by rw [link_sibling_same_index, if_pos he]⟩
    · refine ⟨str "local MODULE = require(script.Parent.Parent",
        str ")\n" ++ exports.format_forwarding_statements (str "MODULE")
          ++ str "\nreturn MODULE\n", ?_⟩
      rw [link_sibling_same_index, if_neg he]
      simp [List.append_assoc]
  · by_cases he : exports.is_empty
    · exact ⟨str "return require(script.Parent._Index", str ")\n",
        by rw [link_root_same_index, if_pos he]⟩
    · refine ⟨str "local MODULE = require(script.Parent._Index",
        str ")\n" ++ exports.format_forwarding_statements (str "MODULE")
          ++ str "\nreturn MODULE\n", ?_⟩
      rw [link_root_same_index, if_neg he]
      simp [List.append_assoc]
  · intro p hp
    simp only [link_shared_index, hp]
    by_cases he : exports.is_empty
    · refine ⟨str "return require(" ++ p ++ str "._Index", str ")\n", ?_⟩
      rw [if_pos he]
    · refine ⟨str "local MODULE = require(" ++ p ++ str "._Index",
        str ")\n" ++ exports.format_forwarding_statements (str "MODULE")
          ++ str "\nreturn MODULE\n", ?_⟩
      rw [if_neg he]
      simp [List.append_assoc]
  · intro p hp
    simp only [link_server_index, hp]
    by_cases he : exports.is_empty
    · refine ⟨str "return require(" ++ p ++ str "._Index", str ")\n", ?_⟩
      rw [if_pos he]
    · refine ⟨str "local MODULE = require(" ++ p ++ str "._Index",
        str ")\n" ++ exports.format_forwarding_statements (str "MODULE")
          ++ str "\nreturn MODULE\n", ?_⟩
      rw [if_neg he]
      simp [List.append_assoc]

/-- Witness for C10 at a concrete input: with the shared root configured,
the shared link of a package decomposes around its index slot. -/
theorem C10_unpack_dir_matches_link_slot_witness :
    ∃ pre post, link_shared_index ctxBoth pkgA ExtractTypesResult.new =
      Except.ok (pre ++ index_access pkgA ++ post) :=
  (C10_unpack_dir_matches_link_slot ctxBoth Realm.Shared pkgA
    ExtractTypesResult.new).2.2.2.2.1 (str "game.ReplicatedStorage.Packages") rfl

end Wally
